import Mathlib

/-!
Shallow embedding of the resilient synchronization layer of
`woheedev/discord-guild-db-bot` (file `src/utils/appwriteHelpers.js`,
given as `src/unnamed/part_001`): the JS `Map`-backed pending-patch set,
the shallow object-spread merge, the TTL document cache, the rate-limited
connection gate, the classifying retry executor and the batch-update
manager with its timer/flush behaviour, modelled as an explicit
event-step system.
-/

namespace DbBot

/-! ### JS `Map` model: insertion-ordered association lists.
`Map.set` replaces the value of an existing key in place and appends a
fresh key at the end; `get`, `has`, `delete` act on the unique entry.
All maps in this development are built from `[]` by these operations. -/

def mapGet {α : Type} : List (String × α) → String → Option α
  | [], _ => none
  | (k1, v1) :: rest, k => if k1 = k then some v1 else mapGet rest k

def mapHas {α : Type} (m : List (String × α)) (k : String) : Bool :=
  (mapGet m k).isSome

def mapSet {α : Type} : List (String × α) → String → α → List (String × α)
  | [], k, v => [(k, v)]
  | (k1, v1) :: rest, k, v =>
    if k1 = k then (k, v) :: rest else (k1, v1) :: mapSet rest k v

def mapDelete {α : Type} : List (String × α) → String → List (String × α)
  | [], _ => []
  | (k1, v1) :: rest, k => if k1 = k then rest else (k1, v1) :: mapDelete rest k

/-- Number of entries of the map holding key `k`. -/
def countKey {α : Type} : List (String × α) → String → Nat
  | [], _ => 0
  | (k1, _) :: rest, k => (if k1 = k then 1 else 0) + countKey rest k

theorem mapGet_set_self {α : Type} (m : List (String × α)) (k : String) (v : α) :
    mapGet (mapSet m k v) k = some v := by
  induction m with
  | nil => simp [mapSet, mapGet]
  | cons hd tl ih =>
    obtain ⟨k1, v1⟩ := hd
    by_cases h : k1 = k
    · simp [mapSet, h, mapGet]
    · simp [mapSet, h, mapGet, ih]

theorem mapGet_set_ne {α : Type} (m : List (String × α)) (k k2 : String) (v : α)
    (hne : k ≠ k2) : mapGet (mapSet m k v) k2 = mapGet m k2 := by
  induction m with
  | nil => simp [mapSet, mapGet, hne]
  | cons hd tl ih =>
    obtain ⟨k1, v1⟩ := hd
    by_cases h : k1 = k
    · subst h
      simp [mapSet, mapGet, hne]
    · by_cases h2 : k1 = k2
      · subst h2
        simp [mapSet, h, mapGet]
      · simp [mapSet, h, mapGet, h2, ih]

theorem mapHas_set {α : Type} (m : List (String × α)) (k k2 : String) (v : α) :
    mapHas (mapSet m k v) k2 = true ↔ (k = k2 ∨ mapHas m k2 = true) := by
  by_cases h : k = k2
  · subst h
    simp [mapHas, mapGet_set_self]
  · simp [mapHas, mapGet_set_ne m k k2 v h, h]

theorem countKey_zero_of_get_none {α : Type} (m : List (String × α)) (k : String)
    (h : mapGet m k = none) : countKey m k = 0 := by
  induction m with
  | nil => simp [countKey]
  | cons hd tl ih =>
    obtain ⟨k1, v1⟩ := hd
    by_cases hk : k1 = k
    · simp [mapGet, hk] at h
    · simp [mapGet, hk] at h
      simp [countKey, hk, ih h]

theorem countKey_set {α : Type} (m : List (String × α)) (k : String) (v : α) :
    countKey (mapSet m k v) k =
      if mapHas m k then countKey m k else countKey m k + 1 := by
  induction m with
  | nil => simp [mapSet, countKey, mapHas, mapGet]
  | cons hd tl ih =>
    obtain ⟨k1, v1⟩ := hd
    by_cases h : k1 = k
    · subst h
      simp [mapSet, countKey, mapHas, mapGet]
    · simp only [mapSet, h, if_false, countKey, mapHas, mapGet, ite_false]
      rw [ih]
      simp only [mapHas]
      by_cases hg : (mapGet tl k).isSome = true
      · simp [hg]
      · simp [hg]

theorem mapGet_none_of_countKey_zero {α : Type} (m : List (String × α)) (k : String)
    (h : countKey m k = 0) : mapGet m k = none := by
  induction m with
  | nil => simp [mapGet]
  | cons hd tl ih =>
    obtain ⟨k1, v1⟩ := hd
    by_cases hk : k1 = k
    · simp [countKey, hk] at h
    · simp [countKey, hk] at h
      simp [mapGet, hk, ih h]

theorem mapGet_delete_self {α : Type} (m : List (String × α)) (k : String)
    (hu : countKey m k ≤ 1) : mapGet (mapDelete m k) k = none := by
  induction m with
  | nil => simp [mapDelete, mapGet]
  | cons hd tl ih =>
    obtain ⟨k1, v1⟩ := hd
    by_cases h : k1 = k
    · subst h
      simp [countKey] at hu
      simp [mapDelete]
      exact mapGet_none_of_countKey_zero tl k1 (by omega)
    · simp [countKey, h] at hu
      simp [mapDelete, h, mapGet, h]
      exact ih (by omega)

/-! ### Field patches and the JS object-spread merge.
A field patch (the `fields` argument of `queueUpdate`) is a JS object:
field name to value, insertion ordered. The coalescer merges patches by
the spread `\x7b...existing, ...fields\x7d`: keys of `existing` keep their
position, fields present in `fields` win, fresh keys of `fields` are
appended in order. -/

abbrev Patch := List (String × Int)

def mergePatch (old new : Patch) : Patch :=
  old.map (fun kv =>
    match mapGet new kv.1 with
    | some v => (kv.1, v)
    | none => kv)
  ++ new.filter (fun kv => (mapGet old kv.1).isNone)

theorem mapGet_append {α : Type} (a b : List (String × α)) (k : String) :
    mapGet (a ++ b) k = (mapGet a k).or (mapGet b k) := by
  induction a with
  | nil => simp [mapGet]
  | cons hd tl ih =>
    obtain ⟨k1, v1⟩ := hd
    by_cases h : k1 = k
    · simp [mapGet, h]
    · simp [mapGet, h, ih]

theorem mapGet_spreadLeft (old new : Patch) (k : String) :
    mapGet (old.map (fun kv =>
      match mapGet new kv.1 with
      | some v => (kv.1, v)
      | none => kv)) k =
      match mapGet old k with
      | some v => some ((mapGet new k).getD v)
      | none => none := by
  induction old with
  | nil => simp [mapGet]
  | cons hd tl ih =>
    obtain ⟨k1, v1⟩ := hd
    by_cases h : k1 = k
    · subst h
      cases hg : mapGet new k1 <;> simp [mapGet, hg]
    · cases hg : mapGet new k1 <;> simp [mapGet, h, hg, ih]

theorem mapGet_spreadRight (old new : Patch) (k : String) :
    mapGet (new.filter (fun kv => (mapGet old kv.1).isNone)) k =
      if (mapGet old k).isSome then none else mapGet new k := by
  induction new with
  | nil => simp [mapGet]
  | cons hd tl ih =>
    obtain ⟨k1, v1⟩ := hd
    by_cases h : k1 = k
    · subst h
      cases hg : mapGet old k1 <;> simp [List.filter, mapGet, hg, ih]
    · cases hg : mapGet old k1 <;>
        cases hg2 : (mapGet old k1).isNone <;>
          simp_all [List.filter, mapGet, h, ih]

/-- Spread semantics of the merge: a field set by the later patch wins,
a field set only by the earlier patch survives. -/
theorem mapGet_mergePatch (old new : Patch) (k : String) :
    mapGet (mergePatch old new) k = (mapGet new k).or (mapGet old k) := by
  rw [mergePatch, mapGet_append, mapGet_spreadLeft, mapGet_spreadRight]
  cases ho : mapGet old k <;> cases hn : mapGet new k <;> simp

/-! ### Errors.
An Appwrite SDK error carries a numeric `code`; the plain
`new Error("Database connection is not available")` thrown by the gate
carries none. `processBatch` recognises the gate error by its message
(line 149 of the source); `withRetry` refuses to retry codes 400/404
(line 190). -/

structure ErrInfo where
  code : Option Nat
  msg : String
deriving DecidableEq, Repr

def connUnavailableError : ErrInfo :=
  { code := none, msg := "Database connection is not available" }

/-- Line 190: `error.code === 400 || error.code === 404`. -/
def nonRetryable (e : ErrInfo) : Bool :=
  e.code = some 400 || e.code = some 404

/-- Line 149: `error.message === "Database connection is not available"`. -/
def isConnectionError (e : ErrInfo) : Bool :=
  e.msg = "Database connection is not available"

/-! ### Rate-limited connection gate (lines 4-37).
Module state: `isDbConnected`, `connectionCheckInProgress`,
`lastConnectionCheck` (initially `false`/`false`/`0`). One call of
`checkDatabaseConnection` is modelled as a function of the state, the
call time `now`, the probe outcome `probeOk` (success of
`databases.listCollections`), and the time `probeEnd` at which the probe
resolves (the `Date.now()` of line 21). On probe failure the source
updates `isDbConnected` but leaves `lastConnectionCheck` untouched; the
`finally` clears the in-progress flag on every path. -/

def CONNECTION_CHECK_INTERVAL : Nat := 5000

structure ConnState where
  isDbConnected : Bool
  connectionCheckInProgress : Bool
  lastConnectionCheck : Nat
deriving DecidableEq, Repr

def initConnState : ConnState :=
  { isDbConnected := false, connectionCheckInProgress := false, lastConnectionCheck := 0 }

structure CheckResult where
  result : Bool
  state : ConnState
  probeInvoked : Bool
deriving DecidableEq, Repr

def checkDatabaseConnection (s : ConnState) (now : Nat) (probeOk : Bool)
    (probeEnd : Nat) : CheckResult :=
  if s.connectionCheckInProgress then
    { result := s.isDbConnected, state := s, probeInvoked := false }
  else if now - s.lastConnectionCheck < CONNECTION_CHECK_INTERVAL then
    { result := s.isDbConnected, state := s, probeInvoked := false }
  else if probeOk then
    { result := true,
      state := { isDbConnected := true, connectionCheckInProgress := false,
                 lastConnectionCheck := probeEnd },
      probeInvoked := true }
  else
    { result := false,
      state := { isDbConnected := false, connectionCheckInProgress := false,
                 lastConnectionCheck := s.lastConnectionCheck },
      probeInvoked := true }

deriving instance DecidableEq for Except

/-- Result of `withDatabaseCheck` (lines 32-37): the operation value or
the thrown error, the connection state afterwards, and whether the
wrapped operation was invoked. -/
structure GateResult where
  result : Except ErrInfo Int
  state : ConnState
  opInvoked : Bool
deriving DecidableEq, Repr

def withDatabaseCheck (s : ConnState) (now : Nat) (probeOk : Bool) (probeEnd : Nat)
    (operation : Except ErrInfo Int) : GateResult :=
  let c := checkDatabaseConnection s now probeOk probeEnd
  if c.result then { result := operation, state := c.state, opInvoked := true }
  else { result := Except.error connUnavailableError, state := c.state, opInvoked := false }

/-! ### DocumentCache (lines 41-76).
A JS `Map` from user id to `\x7bdata, timestamp\x7d`; `get` lazily
evicts entries older than `CACHE_LIFETIME`. Documents are plain
records, modelled like patches. -/

abbrev Doc := List (String × Int)

def CACHE_LIFETIME : Nat := 60000

structure CacheEntry where
  data : Doc
  timestamp : Nat
deriving DecidableEq, Repr

abbrev DocumentCache := List (String × CacheEntry)

def cacheSet (c : DocumentCache) (userId : String) (document : Doc) (now : Nat) :
    DocumentCache :=
  mapSet c userId { data := document, timestamp := now }

/-- `get` returns the hit (or `none`) together with the cache after the
lazy eviction of line 62. -/
def cacheGet (c : DocumentCache) (userId : String) (now : Nat) :
    Option Doc × DocumentCache :=
  match mapGet c userId with
  | none => (none, c)
  | some entry =>
    if now - entry.timestamp > CACHE_LIFETIME then (none, mapDelete c userId)
    else (some entry.data, c)

/-! ### withRetry (lines 179-206).
The `for attempt = 1..MAX_RETRIES` loop is modelled by recursion over
the list of attempt numbers `[1, ..., MAX_RETRIES]`; `attempt <
MAX_RETRIES` (line 194) is exactly "the attempt list has a tail". The
operation is a function from the attempt number to its outcome; the
result records the value or final error, the backoff waits performed
(line 198), and how many times the operation was invoked. -/

def MAX_RETRIES : Nat := 3
def INITIAL_RETRY_DELAY : Nat := 1000

structure RetryResult where
  result : Except ErrInfo Int
  waits : List Nat
  invocations : Nat
deriving DecidableEq, Repr

def retryLoop (operation : Nat → Except ErrInfo Int) :
    List Nat → Nat → List Nat → Nat → RetryResult
  | [], _, waits, inv =>
    -- never reached: the loop body runs at least once (MAX_RETRIES = 3)
    { result := Except.error { code := none, msg := "" }, waits := waits, invocations := inv }
  | attempt :: rest, delay, waits, inv =>
    match operation attempt with
    | Except.ok v => { result := Except.ok v, waits := waits, invocations := inv + 1 }
    | Except.error e =>
      if nonRetryable e then
        { result := Except.error e, waits := waits, invocations := inv + 1 }
      else
        match rest with
        | [] => { result := Except.error e, waits := waits, invocations := inv + 1 }
        | _ :: _ => retryLoop operation rest (delay * 2) (waits ++ [delay]) (inv + 1)

def withRetry (operation : Nat → Except ErrInfo Int) : RetryResult :=
  retryLoop operation (List.range' 1 MAX_RETRIES) INITIAL_RETRY_DELAY [] 0

theorem attemptList_eq : List.range' 1 MAX_RETRIES = [1, 2, 3] := rfl

/-! ### BatchUpdateManager (lines 81-177).
Manager fields: `pendingUpdates` (a JS `Map` of user id to fields) and
`batchTimeout` (the stored timer handle, `null` or a handle value).
Because `processBatch` suspends at each `await`, its iterations
interleave with `queueUpdate` calls and with other timer callbacks; the
manager is modelled as an event-step system. An armed timer is a pair
(handle, delay); handles are allocated fresh. A running `processBatch`
pass holds the snapshot `new Map(this.pendingUpdates)` of line 100 and
the position of the entity being processed. One `stepPass` event is one
iteration of the `for` loop of line 104; the per-entity work (cache
lookup, gated fetch/update under `withRetry`, cache refresh) touches the
manager fields only in the `catch` of lines 148-169, so an iteration is
summarised by its outcome. `success` covers both the cache-hit update
and the fetch-then-update path, `notFound` the empty lookup of line 133
(skip), `otherError` a non-connection error (logged, loop continues),
`connError` the error whose message is
"Database connection is not available" (lines 149-164: requeue over the
whole snapshot, arm a 5000ms timer, `break`). -/

abbrev PendingMap := List (String × Patch)

/-- Lines 89-90: `\x7b...existing, ...fields\x7d` merged into the map. -/
def queuePatchOnly (pending : PendingMap) (userId : String) (fields : Patch) :
    PendingMap :=
  mapSet pending userId (mergePatch ((mapGet pending userId).getD []) fields)

/-- Lines 151-158: for every entry of the snapshot, re-queue it when it
is the failing entity or is absent from the live pending map. -/
def requeueOnDisconnect (snapshot : List (String × Patch)) (failingId : String)
    (pending : PendingMap) : PendingMap :=
  snapshot.foldl
    (fun pd kv =>
      if kv.1 = failingId ∨ mapHas pd kv.1 = false then mapSet pd kv.1 kv.2 else pd)
    pending

structure FlushPass where
  snapshot : List (String × Patch)
  pos : Nat
deriving DecidableEq, Repr

structure MgrState where
  pending : PendingMap
  batchTimeout : Option Nat
  timers : List (Nat × Nat)
  passes : List FlushPass
  nextTimerId : Nat
deriving DecidableEq, Repr

def initMgr : MgrState :=
  { pending := [], batchTimeout := none, timers := [], passes := [], nextTimerId := 0 }

inductive Outcome where
  | success
  | notFound
  | otherError (e : ErrInfo)
  | connError
deriving DecidableEq, Repr

/-- The `catch` of line 148 dispatches on the error message (line 149). -/
def classifyBatchError (e : ErrInfo) : Outcome :=
  if isConnectionError e then Outcome.connError else Outcome.otherError e

inductive Ev where
  | queue (userId : String) (fields : Patch)
  | fire (t : Nat)
  | stepPass (i : Nat) (oc : Outcome)
deriving DecidableEq, Repr

def stepEv (s : MgrState) : Ev → Option MgrState
  | Ev.queue userId fields =>
    -- lines 88-95
    let pending := queuePatchOnly s.pending userId fields
    match s.batchTimeout with
    | none =>
      some { s with
             pending := pending
             batchTimeout := some s.nextTimerId
             timers := s.timers ++ [(s.nextTimerId, 100)]
             nextTimerId := s.nextTimerId + 1 }
    | some _ => some { s with pending := pending }
  | Ev.fire t =>
    -- an armed timer fires; lines 97-102 run synchronously
    if s.timers.any (fun p => p.1 == t) then
      let timers := s.timers.filter (fun p => p.1 != t)
      if s.pending.isEmpty then
        -- line 98: early return; note batchTimeout keeps the stale handle
        some { s with timers := timers }
      else
        some { s with
               timers := timers
               pending := []
               batchTimeout := none
               passes := s.passes ++ [{ snapshot := s.pending, pos := 0 }] }
    else none
  | Ev.stepPass i oc =>
    match s.passes.get? i with
    | none => none
    | some pass =>
      match pass.snapshot.get? pass.pos with
      | none => none
      | some (userId, _) =>
        match oc with
        | Outcome.connError =>
          -- lines 149-164: requeue, arm 5000ms timer, break
          some { s with
                 pending := requeueOnDisconnect pass.snapshot userId s.pending
                 batchTimeout := some s.nextTimerId
                 timers := s.timers ++ [(s.nextTimerId, 5000)]
                 nextTimerId := s.nextTimerId + 1
                 passes := s.passes.eraseIdx i }
        | _ =>
          -- success, empty lookup, or logged error: the loop continues
          if pass.pos + 1 = pass.snapshot.length then
            some { s with passes := s.passes.eraseIdx i }
          else
            some { s with passes := s.passes.set i { pass with pos := pass.pos + 1 } }

def runTrace (evs : List Ev) : Option MgrState :=
  evs.foldlM stepEv initMgr

inductive Reach : MgrState → Prop where
  | init : Reach initMgr
  | step {s s2 : MgrState} {e : Ev} : Reach s → stepEv s e = some s2 → Reach s2

theorem reach_of_runTrace (evs : List Ev) (s : MgrState)
    (h : runTrace evs = some s) : Reach s := by
  rw [runTrace] at h
  suffices hgen : ∀ (l : List Ev) (a b : MgrState), Reach a →
      l.foldlM stepEv a = some b → Reach b by
    exact hgen evs initMgr s Reach.init h
  intro l
  induction l with
  | nil =>
    intro a b ha hb
    simp [List.foldlM] at hb
    exact hb ▸ ha
  | cons hd tl ih =>
    intro a b ha hb
    simp only [List.foldlM] at hb
    cases hstep : stepEv a hd with
    | none => rw [hstep] at hb; simp at hb
    | some a2 =>
      rw [hstep] at hb
      exact ih a2 b (Reach.step ha hstep) hb

/-- No `queueUpdate` while a flush pass is in progress. -/
def quietOk (s : MgrState) : Ev → Prop
  | Ev.queue _ _ => s.passes = []
  | _ => True

inductive ReachQuiet : MgrState → Prop where
  | init : ReachQuiet initMgr
  | step {s s2 : MgrState} {e : Ev} : ReachQuiet s → quietOk s e →
      stepEv s e = some s2 → ReachQuiet s2

/-- Strengthened invariant of the manager under quiet executions: at most
one pass, a running pass excludes armed timers, at most one armed timer,
and a cleared handle means no armed timer. -/
def MgrInv (s : MgrState) : Prop :=
  s.passes.length ≤ 1 ∧
  (s.passes ≠ [] → s.timers = []) ∧
  s.timers.length ≤ 1 ∧
  (s.batchTimeout = none → s.timers = [])

theorem timers_filter_self {l : List (Nat × Nat)} {t : Nat} (hlen : l.length ≤ 1)
    (hany : l.any (fun p => p.1 == t) = true) :
    l.filter (fun p => p.1 != t) = [] := by
  match l with
  | [] => simp at hany
  | [x] =>
    simp at hany
    simp [List.filter, hany]
  | x :: y :: rest => simp at hlen

theorem mgrInv_step {s s2 : MgrState} {e : Ev} (hq : quietOk s e)
    (hstep : stepEv s e = some s2) (hinv : MgrInv s) : MgrInv s2 := by
  obtain ⟨h1, h2, h3, h4⟩ := hinv
  cases e with
  | queue uid fields =>
    have hp : s.passes = [] := hq
    cases hbt : s.batchTimeout with
    | none =>
      have ht : s.timers = [] := h4 hbt
      simp only [stepEv, hbt] at hstep
      obtain rfl := Option.some.inj hstep
      exact ⟨by simp [hp], by simp [hp], by simp [ht], by simp⟩
    | some t0 =>
      simp only [stepEv, hbt] at hstep
      obtain rfl := Option.some.inj hstep
      refine ⟨by simp [hp], by simp [hp], by simpa using h3, ?_⟩
      intro hn
      simp [hbt] at hn
  | fire t =>
    simp only [stepEv] at hstep
    by_cases hany : s.timers.any (fun p => p.1 == t) = true
    · rw [if_pos hany] at hstep
      have hfilter : s.timers.filter (fun p => p.1 != t) = [] :=
        timers_filter_self h3 hany
      have hpe : s.passes = [] := by
        by_contra hne
        have := h2 hne
        rw [this] at hany
        simp at hany
      by_cases hemp : s.pending.isEmpty
      · rw [if_pos hemp] at hstep
        obtain rfl := Option.some.inj hstep
        exact ⟨by simp [hpe], by simp [hpe], by simp [hfilter], by simp [hfilter]⟩
      · rw [if_neg hemp] at hstep
        obtain rfl := Option.some.inj hstep
        exact ⟨by simp [hpe], by simp [hfilter], by simp [hfilter], by simp [hfilter]⟩
    · rw [if_neg hany] at hstep
      exact absurd hstep (by simp)
  | stepPass i oc =>
    cases hgp : s.passes.get? i with
    | none =>
      simp only [stepEv, hgp] at hstep
      exact Option.noConfusion hstep
    | some pass =>
      cases hcur : pass.snapshot.get? pass.pos with
      | none =>
        simp only [stepEv, hgp, hcur] at hstep
        exact Option.noConfusion hstep
      | some kv =>
        obtain ⟨uid, f⟩ := kv
        have hpne : s.passes ≠ [] := by
          intro hnil
          rw [hnil] at hgp
          simp at hgp
        have ht : s.timers = [] := h2 hpne
        obtain ⟨a, hpa⟩ : ∃ a, s.passes = [a] := by
          cases hps : s.passes with
          | nil => exact absurd hps hpne
          | cons a rest =>
            cases rest with
            | nil => exact ⟨a, rfl⟩
            | cons b rest2 => rw [hps] at h1; simp at h1
        have hi0 : i = 0 := by
          rw [hpa] at hgp
          cases i with
          | zero => rfl
          | succ j => simp at hgp
        subst hi0
        cases oc with
        | connError =>
          simp only [stepEv, hgp, hcur] at hstep
          obtain rfl := Option.some.inj hstep
          exact ⟨by simp [hpa], by simp [hpa], by simp [ht], by simp⟩
        | success =>
          simp only [stepEv, hgp, hcur] at hstep
          by_cases hdone : pass.pos + 1 = pass.snapshot.length
          · rw [if_pos hdone] at hstep
            obtain rfl := Option.some.inj hstep
            exact ⟨by simp [hpa], fun _ => ht, by simp [ht], fun _ => ht⟩
          · rw [if_neg hdone] at hstep
            obtain rfl := Option.some.inj hstep
            refine ⟨?_, fun _ => ht, by simp [ht], fun _ => ht⟩
            simp [hpa]
        | notFound =>
          simp only [stepEv, hgp, hcur] at hstep
          by_cases hdone : pass.pos + 1 = pass.snapshot.length
          · rw [if_pos hdone] at hstep
            obtain rfl := Option.some.inj hstep
            exact ⟨by simp [hpa], fun _ => ht, by simp [ht], fun _ => ht⟩
          · rw [if_neg hdone] at hstep
            obtain rfl := Option.some.inj hstep
            refine ⟨?_, fun _ => ht, by simp [ht], fun _ => ht⟩
            simp [hpa]
        | otherError e0 =>
          simp only [stepEv, hgp, hcur] at hstep
          by_cases hdone : pass.pos + 1 = pass.snapshot.length
          · rw [if_pos hdone] at hstep
            obtain rfl := Option.some.inj hstep
            exact ⟨by simp [hpa], fun _ => ht, by simp [ht], fun _ => ht⟩
          · rw [if_neg hdone] at hstep
            obtain rfl := Option.some.inj hstep
            refine ⟨?_, fun _ => ht, by simp [ht], fun _ => ht⟩
            simp [hpa]

theorem reachQuiet_inv (s : MgrState) (h : ReachQuiet s) : MgrInv s := by
  induction h with
  | init =>
    exact ⟨by simp [initMgr], by simp [initMgr], by simp [initMgr], by simp [initMgr]⟩
  | step _ hq hs ih => exact mgrInv_step hq hs ih

/-- The requeue loop of lines 151-158 never touches an entity that is
already present in the live pending map, other than the failing one. -/
theorem requeue_preserves (snapshot : List (String × Patch)) (failingId id : String)
    (pd : PendingMap) (hne : id ≠ failingId) (hhas : mapHas pd id = true) :
    mapGet (requeueOnDisconnect snapshot failingId pd) id = mapGet pd id := by
  induction snapshot generalizing pd with
  | nil => rfl
  | cons kv rest ih =>
    obtain ⟨k1, p1⟩ := kv
    simp only [requeueOnDisconnect] at ih ⊢
    rw [List.foldl_cons]
    by_cases hcond : k1 = failingId ∨ mapHas pd k1 = false
    · rw [if_pos hcond]
      have hk1 : k1 ≠ id := by
        intro heq
        subst heq
        rcases hcond with hc1 | hc2
        · exact hne hc1
        · rw [hhas] at hc2
          exact Bool.noConfusion hc2
      have hhas2 : mapHas (mapSet pd k1 p1) id = true :=
        (mapHas_set pd k1 id p1).mpr (Or.inr hhas)
      rw [ih (mapSet pd k1 p1) hhas2]
      exact mapGet_set_ne pd k1 id p1 hk1
    · rw [if_neg hcond]
      exact ih pd hhas

/-- Folding `queueUpdate` calls for one id accumulates the spread merge
of the patches and keeps a single entry for the id. -/
theorem queueFold_get (patches : List Patch) (pd : PendingMap) (id : String)
    (acc : Patch) (h : mapGet pd id = some acc) (hc : countKey pd id = 1) :
    mapGet (patches.foldl (fun m p => queuePatchOnly m id p) pd) id
      = some (patches.foldl mergePatch acc) ∧
    countKey (patches.foldl (fun m p => queuePatchOnly m id p) pd) id = 1 := by
  induction patches generalizing pd acc with
  | nil => exact ⟨h, hc⟩
  | cons p rest ih =>
    rw [List.foldl_cons, List.foldl_cons]
    apply ih
    · rw [queuePatchOnly, h]
      simp [mapGet_set_self]
    · rw [queuePatchOnly, countKey_set]
      have hh : mapHas pd id = true := by simp [mapHas, h]
      simp [hh, hc]

/-! ### Concrete scenarios used by the claim theorems. -/

/-- Entities A and B are queued; the flush fires; A is processed
successfully; B fails with the connection error. No concurrent
`queueUpdate` happens during the pass. -/
def c1Trace : List Ev :=
  [Ev.queue "A" [("x", 1)], Ev.queue "B" [("y", 2)], Ev.fire 0,
   Ev.stepPass 0 Outcome.success, Ev.stepPass 0 Outcome.connError]

def c1State : MgrState :=
  { pending := [("A", [("x", 1)]), ("B", [("y", 2)])], batchTimeout := some 1,
    timers := [(1, 5000)], passes := [], nextTimerId := 2 }

/-- A is queued and the flush fires; during the pass a concurrent
`queueUpdate` for A arrives; then A fails with the connection error. -/
def c2xTrace : List Ev :=
  [Ev.queue "A" [("x", 1)], Ev.fire 0, Ev.queue "A" [("x", 2)],
   Ev.stepPass 0 Outcome.connError]

def c2xState : MgrState :=
  { pending := [("A", [("x", 1)])], batchTimeout := some 2,
    timers := [(1, 100), (2, 5000)], passes := [], nextTimerId := 3 }

/-- A manager with a pass over A in progress and a live pending entry
for B that was queued concurrently. -/
def c2wState : MgrState :=
  { pending := [("B", [("y", 2)])], batchTimeout := none, timers := [],
    passes := [{ snapshot := [("A", [("x", 1)])], pos := 0 }], nextTimerId := 1 }

def c2wState2 : MgrState :=
  { pending := [("B", [("y", 2)]), ("A", [("x", 1)])], batchTimeout := some 1,
    timers := [(1, 5000)], passes := [], nextTimerId := 2 }

/-- A is queued and the flush fires; during the pass a concurrent
`queueUpdate` for B arms a fresh 100ms debounce timer; then A fails with
the connection error and the pass arms the 5000ms cooldown timer on top,
overwriting `batchTimeout` without clearing the first timer. -/
def c3xTrace : List Ev :=
  [Ev.queue "A" [("x", 1)], Ev.fire 0, Ev.queue "B" [("y", 2)],
   Ev.stepPass 0 Outcome.connError]

def c3xState : MgrState :=
  { pending := [("B", [("y", 2)]), ("A", [("x", 1)])], batchTimeout := some 2,
    timers := [(1, 100), (2, 5000)], passes := [], nextTimerId := 3 }

/-- Quiet run: queue A, fire, the single entity fails on connection. -/
def c3wState : MgrState :=
  { pending := [("A", [("x", 1)])], batchTimeout := some 1, timers := [(1, 5000)],
    passes := [], nextTimerId := 2 }

def c3wMid1 : MgrState :=
  { pending := [("A", [("x", 1)])], batchTimeout := some 0, timers := [(0, 100)],
    passes := [], nextTimerId := 1 }

def c3wMid2 : MgrState :=
  { pending := [], batchTimeout := none, timers := [],
    passes := [{ snapshot := [("A", [("x", 1)])], pos := 0 }], nextTimerId := 1 }

theorem c3wState_reach : ReachQuiet c3wState := by
  have h1 : ReachQuiet c3wMid1 :=
    @ReachQuiet.step initMgr c3wMid1 (Ev.queue "A" [("x", 1)])
      ReachQuiet.init (by simp [quietOk, initMgr]) (by decide)
  have h2 : ReachQuiet c3wMid2 :=
    @ReachQuiet.step c3wMid1 c3wMid2 (Ev.fire 0) h1 (by simp [quietOk]) (by decide)
  exact @ReachQuiet.step c3wMid2 c3wState (Ev.stepPass 0 Outcome.connError) h2
    (by simp [quietOk]) (by decide)

/-! ### Claim theorems. -/

/-- Claim C1: the spec says that after a pass aborted by a
ConnectionUnavailable failure, every snapshot entity already processed
successfully is absent from the pending set. The code instead re-queues
every snapshot entity that is absent from the live pending map: with
snapshot entities A and B, A processed successfully and B failing on
connection, A reappears in the pending set with its snapshot patch
(the requeue loop of lines 151-158 iterates the whole snapshot,
contradicting the comment of line 150 and the log of line 160); the
5000ms cooldown timer is armed as claimed. -/
theorem C1_requeue_readds_processed :
    runTrace c1Trace = some c1State ∧
    mapGet c1State.pending "A" = some [("x", 1)] ∧
    mapGet c1State.pending "B" = some [("y", 2)] ∧
    c1State.timers = [(1, 5000)] := by
  refine ⟨by decide, by decide, by decide, by decide⟩

/-- Claim C2, counterexample: a patch queued for the failing entity
after the snapshot was taken is overwritten by the running pass: the
concurrent patch x=2 for A is replaced by the snapshot patch x=1 when
the requeue of lines 151-158 runs. -/
theorem C2_counterexample :
    runTrace c2xTrace = some c2xState ∧
    mapGet c2xState.pending "A" = some [("x", 1)] ∧
    mapGet c2xState.pending "A" ≠ some [("x", 2)] := by
  refine ⟨by decide, by decide, by decide⟩

/-- Claim C2 (amended): a pass iteration never modifies the new
PendingPatchSet unless its outcome is the connection error, and the
connection-error requeue leaves every concurrently queued entry intact
except the failing entity itself, whose snapshot patch overwrites the
concurrent one. -/
theorem C2_amended_passIsolation (s s2 : MgrState) (i : Nat) (oc : Outcome)
    (pass : FlushPass) (uid : String) (fields : Patch) (id : String)
    (hstep : stepEv s (Ev.stepPass i oc) = some s2)
    (hpass : s.passes.get? i = some pass)
    (hcur : pass.snapshot.get? pass.pos = some (uid, fields)) :
    (oc ≠ Outcome.connError → s2.pending = s.pending) ∧
    (id ≠ uid → mapHas s.pending id = true →
      mapGet s2.pending id = mapGet s.pending id) := by
  cases oc with
  | connError =>
    simp only [stepEv, hpass, hcur] at hstep
    obtain rfl := Option.some.inj hstep
    refine ⟨fun hne => absurd rfl hne, fun hne hhas => ?_⟩
    exact requeue_preserves pass.snapshot uid id s.pending hne hhas
  | success =>
    simp only [stepEv, hpass, hcur] at hstep
    by_cases hdone : pass.pos + 1 = pass.snapshot.length
    · rw [if_pos hdone] at hstep
      obtain rfl := Option.some.inj hstep
      exact ⟨fun _ => rfl, fun _ _ => rfl⟩
    · rw [if_neg hdone] at hstep
      obtain rfl := Option.some.inj hstep
      exact ⟨fun _ => rfl, fun _ _ => rfl⟩
  | notFound =>
    simp only [stepEv, hpass, hcur] at hstep
    by_cases hdone : pass.pos + 1 = pass.snapshot.length
    · rw [if_pos hdone] at hstep
      obtain rfl := Option.some.inj hstep
      exact ⟨fun _ => rfl, fun _ _ => rfl⟩
    · rw [if_neg hdone] at hstep
      obtain rfl := Option.some.inj hstep
      exact ⟨fun _ => rfl, fun _ _ => rfl⟩
  | otherError e0 =>
    simp only [stepEv, hpass, hcur] at hstep
    by_cases hdone : pass.pos + 1 = pass.snapshot.length
    · rw [if_pos hdone] at hstep
      obtain rfl := Option.some.inj hstep
      exact ⟨fun _ => rfl, fun _ _ => rfl⟩
    · rw [if_neg hdone] at hstep
      obtain rfl := Option.some.inj hstep
      exact ⟨fun _ => rfl, fun _ _ => rfl⟩

theorem C2_amended_witness :
    stepEv c2wState (Ev.stepPass 0 Outcome.connError) = some c2wState2 ∧
    ((Outcome.connError ≠ Outcome.connError → c2wState2.pending = c2wState.pending) ∧
     ("B" ≠ "A" → mapHas c2wState.pending "B" = true →
       mapGet c2wState2.pending "B" = mapGet c2wState.pending "B")) :=
  ⟨by decide,
   C2_amended_passIsolation c2wState c2wState2 0 Outcome.connError
     { snapshot := [("A", [("x", 1)])], pos := 0 } "A" [("x", 1)] "B"
     (by decide) (by decide) (by decide)⟩

/-- Claim C3, counterexample: a reachable manager state carries two
armed flush timers at once: the 100ms debounce timer armed by a
`queueUpdate` arriving during a running pass, and the 5000ms cooldown
timer that the connection-failure branch assigns to `batchTimeout`
(line 163) without clearing the first one. -/
theorem C3_counterexample :
    runTrace c3xTrace = some c3xState ∧ Reach c3xState ∧
    c3xState.timers = [(1, 100), (2, 5000)] ∧ c3xState.timers.length = 2 :=
  ⟨by decide, reach_of_runTrace c3xTrace c3xState (by decide), by decide, by decide⟩

/-- Claim C3 (amended): in every manager state reachable without a
`queueUpdate` while a flush pass is in progress, at most one flush timer
is armed and at most one flush pass is in progress. -/
theorem C3_amended_singleTimer (s : MgrState) (h : ReachQuiet s) :
    s.timers.length ≤ 1 ∧ s.passes.length ≤ 1 := by
  have hi := reachQuiet_inv s h
  exact ⟨hi.2.2.1, hi.1⟩

theorem C3_amended_witness :
    ReachQuiet c3wState ∧ c3wState.timers.length ≤ 1 ∧ c3wState.passes.length ≤ 1 :=
  ⟨c3wState_reach, C3_amended_singleTimer c3wState c3wState_reach⟩

/-- Claim C4, counterexample: two sequential `checkDatabaseConnection`
calls 1ms apart, starting from the module-initial state, both invoke the
probe when the first probe fails: line 21 updates `lastConnectionCheck`
only on success, so a failed probe does not open a rate-limit window. -/
theorem C4_counterexample :
    (checkDatabaseConnection initConnState 10000 false 10000).probeInvoked = true ∧
    (checkDatabaseConnection (checkDatabaseConnection initConnState 10000 false 10000).state
        10001 false 10001).probeInvoked = true := by
  refine ⟨by decide, by decide⟩

/-- Claim C4 (amended): for sequential calls less than 5000ms apart, if
the first call invokes the probe and the probe succeeds, the second call
does not invoke the probe and returns the value the first resolved. -/
theorem C4_amended_rateLimit (s : ConnState) (t1 e1 t2 e2 : Nat) (ok2 : Bool)
    (h1 : t1 ≤ e1) (h2 : e1 ≤ t2) (hwin : t2 < t1 + CONNECTION_CHECK_INTERVAL)
    (hprobe : (checkDatabaseConnection s t1 true e1).probeInvoked = true) :
    (checkDatabaseConnection (checkDatabaseConnection s t1 true e1).state
        t2 ok2 e2).probeInvoked = false ∧
    (checkDatabaseConnection (checkDatabaseConnection s t1 true e1).state
        t2 ok2 e2).result = (checkDatabaseConnection s t1 true e1).result := by
  by_cases hin : s.connectionCheckInProgress
  · simp [checkDatabaseConnection, hin] at hprobe
  · by_cases hw : t1 - s.lastConnectionCheck < CONNECTION_CHECK_INTERVAL
    · simp [checkDatabaseConnection, hin, hw] at hprobe
    · have hcalc : checkDatabaseConnection s t1 true e1 =
          { result := true,
            state := { isDbConnected := true, connectionCheckInProgress := false,
                       lastConnectionCheck := e1 },
            probeInvoked := true } := by
        simp [checkDatabaseConnection, hin, hw]
      rw [hcalc]
      have hwin2 : t2 - e1 < CONNECTION_CHECK_INTERVAL := by
        rw [CONNECTION_CHECK_INTERVAL] at hwin ⊢
        omega
      simp [checkDatabaseConnection, hwin2]

theorem C4_amended_witness :
    (checkDatabaseConnection initConnState 6000 true 6000).probeInvoked = true ∧
    (checkDatabaseConnection (checkDatabaseConnection initConnState 6000 true 6000).state
        6001 false 6001).probeInvoked = false ∧
    (checkDatabaseConnection (checkDatabaseConnection initConnState 6000 true 6000).state
        6001 false 6001).result = (checkDatabaseConnection initConnState 6000 true 6000).result :=
  ⟨by decide,
   (C4_amended_rateLimit initConnState 6000 6000 6001 6001 false
     (by decide) (by decide) (by decide) (by decide)).1,
   (C4_amended_rateLimit initConnState 6000 6000 6001 6001 false
     (by decide) (by decide) (by decide) (by decide)).2⟩

/-- Claim C5: a sequence of `queueUpdate(id, patch_i)` calls before a
flush leaves exactly one pending entry for the id, equal to the
left-to-right spread merge of the patches; on each merge the later patch
wins per field and fields set by only one side coexist. -/
theorem C5_queueUpdate_merge (pd : PendingMap) (id : String) (patches : List Patch)
    (h0 : mapGet pd id = none) (hne : patches ≠ []) :
    mapGet (patches.foldl (fun m p => queuePatchOnly m id p) pd) id
      = some (patches.foldl mergePatch []) ∧
    countKey (patches.foldl (fun m p => queuePatchOnly m id p) pd) id = 1 ∧
    (∀ old new k, mapGet (mergePatch old new) k = (mapGet new k).or (mapGet old k)) := by
  cases patches with
  | nil => exact absurd rfl hne
  | cons p rest =>
    rw [List.foldl_cons, List.foldl_cons]
    have hstep : mapGet (queuePatchOnly pd id p) id = some (mergePatch [] p) := by
      rw [queuePatchOnly, h0]
      simp [mapGet_set_self]
    have hcount : countKey (queuePatchOnly pd id p) id = 1 := by
      rw [queuePatchOnly, countKey_set]
      have hh : mapHas pd id = false := by simp [mapHas, h0]
      simp [hh, countKey_zero_of_get_none pd id h0]
    obtain ⟨hg, hc⟩ := queueFold_get rest (queuePatchOnly pd id p) id
      (mergePatch [] p) hstep hcount
    exact ⟨hg, hc, fun old new k => mapGet_mergePatch old new k⟩

theorem C5_witness :
    mapGet ([] : PendingMap) "u1" = none ∧
    mapGet ([[("a", 1)], [("b", 2)]].foldl (fun m p => queuePatchOnly m "u1" p) []) "u1"
      = some ([[("a", 1)], [("b", 2)]].foldl mergePatch []) ∧
    [[("a", 1)], [("b", 2)]].foldl mergePatch ([] : Patch) = [("a", 1), ("b", 2)] :=
  ⟨rfl,
   (C5_queueUpdate_merge [] "u1" [[("a", 1)], [("b", 2)]] rfl (by decide)).1,
   by decide⟩

/-- Claim C6: an entry set at time t is returned by `get` while no more
than `CACHE_LIFETIME` has elapsed; once more has elapsed, `get` returns
nothing and evicts the entry from the returned cache. -/
theorem C6_cache_ttl (c : DocumentCache) (id : String) (document : Doc) (t t2 : Nat)
    (hu : countKey c id ≤ 1) (_hle : t ≤ t2) :
    (t2 - t ≤ CACHE_LIFETIME →
      cacheGet (cacheSet c id document t) id t2
        = (some document, cacheSet c id document t)) ∧
    (t2 - t > CACHE_LIFETIME →
      (cacheGet (cacheSet c id document t) id t2).1 = none ∧
      mapGet (cacheGet (cacheSet c id document t) id t2).2 id = none) := by
  have hget : mapGet (cacheSet c id document t) id
      = some { data := document, timestamp := t } :=
    mapGet_set_self c id { data := document, timestamp := t }
  have hcnt : countKey (cacheSet c id document t) id ≤ 1 := by
    rw [cacheSet, countKey_set]
    by_cases hh : mapHas c id = true
    · simp [hh]
      exact hu
    · simp at hh
      have h0 : countKey c id = 0 := by
        rw [mapHas] at hh
        cases hg : mapGet c id with
        | none => exact countKey_zero_of_get_none c id hg
        | some v => rw [hg] at hh; simp at hh
      simp [hh, h0]
  constructor
  · intro hfresh
    rw [cacheGet, hget]
    have : ¬ (t2 - t > CACHE_LIFETIME) := by omega
    simp [this]
  · intro hstale
    rw [cacheGet, hget]
    simp only [hstale, if_pos, gt_iff_lt]
    have hlt : CACHE_LIFETIME < t2 - t := hstale
    simp [hlt]
    exact mapGet_delete_self (cacheSet c id document t) id hcnt

theorem C6_witness :
    cacheGet (cacheSet [] "u" [("f", 7)] 0) "u" 59000
      = (some [("f", 7)], cacheSet [] "u" [("f", 7)] 0) ∧
    (cacheGet (cacheSet [] "u" [("f", 7)] 0) "u" 61000).1 = none ∧
    mapGet (cacheGet (cacheSet [] "u" [("f", 7)] 0) "u" 61000).2 "u" = none :=
  ⟨(C6_cache_ttl [] "u" [("f", 7)] 0 59000 (by decide) (by decide)).1 (by decide),
   ((C6_cache_ttl [] "u" [("f", 7)] 0 61000 (by decide) (by decide)).2 (by decide)).1,
   ((C6_cache_ttl [] "u" [("f", 7)] 0 61000 (by decide) (by decide)).2 (by decide)).2⟩

/-- Claim C7: an operation failing retryably on attempts 1 and 2 and
succeeding on attempt 3 makes `withRetry` return the success value after
backoff waits of 1000ms then 2000ms, with three invocations. -/
theorem C7_retry_backoff (operation : Nat → Except ErrInfo Int) (e1 e2 : ErrInfo)
    (v : Int) (h1 : operation 1 = Except.error e1) (h2 : operation 2 = Except.error e2)
    (h3 : operation 3 = Except.ok v)
    (hr1 : nonRetryable e1 = false) (hr2 : nonRetryable e2 = false) :
    withRetry operation =
      { result := Except.ok v, waits := [1000, 2000], invocations := 3 } := by
  simp only [withRetry, attemptList_eq, INITIAL_RETRY_DELAY, retryLoop,
    h1, hr1, h2, hr2, h3]
  rfl

def c7op : Nat → Except ErrInfo Int :=
  fun n => if n = 3 then Except.ok 42 else Except.error { code := some 500, msg := "boom" }

theorem C7_witness :
    c7op 1 = Except.error { code := some 500, msg := "boom" } ∧
    c7op 3 = Except.ok 42 ∧
    withRetry c7op = { result := Except.ok 42, waits := [1000, 2000], invocations := 3 } :=
  ⟨by decide, by decide,
   C7_retry_backoff c7op { code := some 500, msg := "boom" }
     { code := some 500, msg := "boom" } 42
     (by decide) (by decide) (by decide) (by decide) (by decide)⟩

/-- Claim C8: a 400/404-class failure is propagated at once, with no
further attempts and no backoff wait appended; when every attempt fails
retryably, the error of the last attempt is propagated; `withRetry`
always answers with either a success value or a propagated error. -/
theorem C8_retry_error_paths (operation : Nat → Except ErrInfo Int) (e1 e2 e3 : ErrInfo)
    (h1 : operation 1 = Except.error e1) (h2 : operation 2 = Except.error e2)
    (h3 : operation 3 = Except.error e3) :
    (nonRetryable e1 = true →
      withRetry operation =
        { result := Except.error e1, waits := [], invocations := 1 }) ∧
    (nonRetryable e1 = false → nonRetryable e2 = true →
      withRetry operation =
        { result := Except.error e2, waits := [1000], invocations := 2 }) ∧
    (nonRetryable e1 = false → nonRetryable e2 = false →
      withRetry operation =
        { result := Except.error e3, waits := [1000, 2000], invocations := 3 }) := by
  refine ⟨fun hn1 => ?_, fun hr1 hn2 => ?_, fun hr1 hr2 => ?_⟩
  · simp only [withRetry, attemptList_eq, INITIAL_RETRY_DELAY, retryLoop, h1, hn1]
    rfl
  · simp only [withRetry, attemptList_eq, INITIAL_RETRY_DELAY, retryLoop,
      h1, hr1, h2, hn2]
    rfl
  · simp only [withRetry, attemptList_eq, INITIAL_RETRY_DELAY, retryLoop,
      h1, hr1, h2, hr2, h3]
    cases hn3 : nonRetryable e3 <;> simp [hn3] <;> rfl

def c8op : Nat → Except ErrInfo Int :=
  fun _ => Except.error { code := some 404, msg := "document not found" }

theorem C8_witness :
    nonRetryable { code := some 404, msg := "document not found" } = true ∧
    withRetry c8op =
      { result := Except.error { code := some 404, msg := "document not found" },
        waits := [], invocations := 1 } :=
  ⟨by decide,
   (C8_retry_error_paths c8op
      { code := some 404, msg := "document not found" }
      { code := some 404, msg := "document not found" }
      { code := some 404, msg := "document not found" }
      (by decide) (by decide) (by decide)).1 (by decide)⟩

/-- Claim C9: `withDatabaseCheck` throws the ConnectionUnavailable error
without invoking the operation whenever the connection check answers
false, and hands back exactly the operation result when it answers
true. -/
theorem C9_gate (s : ConnState) (now probeEnd : Nat) (probeOk : Bool)
    (operation : Except ErrInfo Int) :
    ((checkDatabaseConnection s now probeOk probeEnd).result = false →
      withDatabaseCheck s now probeOk probeEnd operation =
        { result := Except.error connUnavailableError,
          state := (checkDatabaseConnection s now probeOk probeEnd).state,
          opInvoked := false }) ∧
    ((checkDatabaseConnection s now probeOk probeEnd).result = true →
      withDatabaseCheck s now probeOk probeEnd operation =
        { result := operation,
          state := (checkDatabaseConnection s now probeOk probeEnd).state,
          opInvoked := true }) := by
  constructor <;> intro h <;> simp [withDatabaseCheck, h]

theorem C9_witness :
    (checkDatabaseConnection initConnState 10000 false 10000).result = false ∧
    withDatabaseCheck initConnState 10000 false 10000 (Except.ok 5) =
      { result := Except.error connUnavailableError,
        state := (checkDatabaseConnection initConnState 10000 false 10000).state,
        opInvoked := false } :=
  ⟨by decide, (C9_gate initConnState 10000 10000 false (Except.ok 5)).1 (by decide)⟩

/-- One attempt of a gated remote call of `processBatch` with the store
unreachable: the probe at time 10000 fails from the initial state, the
gate throws before the wrapped SDK call runs. -/
def unreachableStoreAttempt (inner : Except ErrInfo Int) : GateResult :=
  withDatabaseCheck initConnState 10000 false 10000 inner

/-- Claim C10: the gate error carries no 400/404 code, so `withRetry`
classifies it as retryable: with the store unreachable a gated call is
attempted 3 times with waits of 1000ms and 2000ms, the wrapped SDK
operation is never invoked, and the final error is the one the requeue
branch of line 149 recognises as the connection error. -/
theorem C10_connError_is_retryable :
    (∀ inner, (unreachableStoreAttempt inner).result
        = Except.error connUnavailableError ∧
      (unreachableStoreAttempt inner).opInvoked = false) ∧
    withRetry (fun _ => (unreachableStoreAttempt (Except.ok 0)).result) =
      { result := Except.error connUnavailableError,
        waits := [1000, 2000], invocations := 3 } ∧
    nonRetryable connUnavailableError = false ∧
    classifyBatchError connUnavailableError = Outcome.connError := by
  refine ⟨fun inner => ?_, by decide, by decide, by decide⟩
  have hc : (checkDatabaseConnection initConnState 10000 false 10000).result = false := by
    decide
  rw [unreachableStoreAttempt]
  exact ⟨by simp [withDatabaseCheck, hc], by simp [withDatabaseCheck, hc]⟩

end DbBot
